/-
  Verification development for the PostSync repository.

  Part A embeds the dashboard JavaScript helpers that are present verbatim in
  the source (src/js/app.js, src/unnamed/part_000, src/unnamed/part_001).
  Part B models the content scoring / deduplication pipeline of spec.md:
  that pipeline is documented in the README and PRD but has no implementation
  in the supplied sources, so its definitions are modelled from the spec.
-/
import Mathlib

namespace PostSync

/-! ### Part A: dashboard JavaScript helpers -/

/-- Round-to-nearest with ties-to-even of the rational a / b, for b > 0.
This is the rounding used when an exact rational is converted to the nearest
IEEE-754 binary64 value. -/
def rne (a b : ℕ) : ℕ :=
  let q := a / b
  let r := a % b
  if 2 * r < b then q
  else if b < 2 * r then q + 1
  else if q % 2 = 0 then q else q + 1

/-- Floor of the base-2 logarithm (0 at 0), computed by structural recursion
on a fuel argument so that it reduces inside the kernel. -/
def natLog2Aux : ℕ → ℕ → ℕ
  | 0, _ => 0
  | fuel + 1, n => if n < 2 then 0 else natLog2Aux fuel (n / 2) + 1

/-- Floor of the base-2 logarithm of n (0 at 0). -/
def natLog2 (n : ℕ) : ℕ := natLog2Aux n n

/-- The IEEE-754 binary64 (JavaScript number) value of the expression
`num / 1000`, represented exactly as a pair (m, s) whose value is the
rational m / s.  Meaningful for 1000 ≤ num (the only regime in which
`formatNumber` evaluates it): there the quotient is at least 1, its binade
exponent is k = ⌊log2 (num/1000)⌋, and the nearest double is obtained by
rounding num/1000 to the grid of spacing 2^(k-52) with ties to even. -/
def jsDiv1000 (num : ℕ) : ℕ × ℕ :=
  let k := natLog2 (num / 1000)
  if k ≤ 52 then
    let s := 2 ^ (52 - k)
    (rne (num * s) 1000, s)
  else
    let t := 2 ^ (k - 52)
    (rne num (1000 * t) * t, 1)

/-- Model of the JavaScript expression `(num / 1000).toFixed(1)` for a
non-negative integer `num ≥ 1000`.  Per ECMA-262, `toFixed(1)` picks the
integer n minimizing |n / 10 - x| over the exact binary64 value x of
`num / 1000` (ties go to the larger n, hence n = ⌊10·x + 1/2⌋) and prints
n with a decimal point before its last digit. -/
def toFixed1 (num : ℕ) : String :=
  let p := jsDiv1000 num
  let n := (20 * p.1 + p.2) / (2 * p.2)
  Nat.repr (n / 10) ++ "." ++ Nat.repr (n % 10)

/-- DashboardApp.formatNumber (src/unnamed/part_001 lines 561-566 and
src/unnamed/part_000 lines 1874-1879):
`if (num >= 1000) return (num / 1000).toFixed(1) + 'K'; return num.toString();` -/
def formatNumber (num : ℕ) : String :=
  if 1000 ≤ num then toFixed1 num ++ "K" else Nat.repr num

/-- JavaScript regex test `/[a-z]/.test(password)` over the characters. -/
def hasLower (p : List Char) : Bool := p.any fun c => 'a' ≤ c && c ≤ 'z'

/-- JavaScript regex test `/[A-Z]/.test(password)`. -/
def hasUpper (p : List Char) : Bool := p.any fun c => 'A' ≤ c && c ≤ 'Z'

/-- JavaScript regex test `/[0-9]/.test(password)`. -/
def hasDigit (p : List Char) : Bool := p.any fun c => '0' ≤ c && c ≤ '9'

/-- JavaScript regex test `/[^A-Za-z0-9]/.test(password)`. -/
def hasSymbol (p : List Char) : Bool :=
  p.any fun c =>
    !(('a' ≤ c && c ≤ 'z') || ('A' ≤ c && c ≤ 'Z') || ('0' ≤ c && c ≤ '9'))

/-- The score accumulated by PostSyncApp.checkPasswordStrength
(src/js/app.js lines 228-259).  Strings are modelled as sequences of
Unicode scalar values; the JavaScript character classes are the ASCII
ranges shown in the regexes. -/
def passwordScore (p : String) : ℕ :=
  (if 8 ≤ p.length then 25 else 0) +
  (if hasLower p.toList then 15 else 0) +
  (if hasUpper p.toList then 15 else 0) +
  (if hasDigit p.toList then 20 else 0) +
  (if hasSymbol p.toList then 25 else 0)

/-- The feedback label chosen by PostSyncApp.checkPasswordStrength from the
accumulated score. -/
def passwordFeedback (score : ℕ) : String :=
  if score < 30 then "Weak password"
  else if score < 60 then "Fair password"
  else if score < 90 then "Good password"
  else "Strong password"

/-- PostSyncApp.checkPasswordStrength (src/js/app.js lines 228-259),
restricted to its pure computation: the score and the feedback text
(the DOM writes are outside the model). -/
def checkPasswordStrength (p : String) : ℕ × String :=
  (passwordScore p, passwordFeedback (passwordScore p))

/-- A dataset of the dashboard performance chart. -/
structure ChartData where
  labels : List String
  engagement : List ℕ
  quality : List ℕ
deriving DecidableEq

/-- The '7d' entry of the `data` object literal in
DashboardApp.generateMockData (src/unnamed/part_001 lines 347-367). -/
def data7d : ChartData :=
  ⟨["Jan 1", "Jan 2", "Jan 3", "Jan 4", "Jan 5", "Jan 6", "Jan 7"],
   [45, 52, 48, 61, 55, 67, 58],
   [88, 92, 85, 94, 90, 96, 93]⟩

/-- The '30d' entry of the `data` object literal. -/
def data30d : ChartData :=
  ⟨["Week 1", "Week 2", "Week 3", "Week 4"],
   [180, 220, 195, 240],
   [89, 91, 87, 94]⟩

/-- The '90d' entry of the `data` object literal. -/
def data90d : ChartData :=
  ⟨["Month 1", "Month 2", "Month 3"],
   [650, 780, 720],
   [88, 90, 92]⟩

/-- Own-property lookup on the `data` object literal. -/
def mockDataOwn (timeRange : String) : Option ChartData :=
  if timeRange = "7d" then some data7d
  else if timeRange = "30d" then some data30d
  else if timeRange = "90d" then some data90d
  else none

/-- Property names an object literal inherits from Object.prototype.  In
JavaScript, `data[timeRange]` also finds these inherited members, and each
of them is a function or object, hence truthy. -/
def objectProtoProps : List String :=
  ["constructor", "hasOwnProperty", "isPrototypeOf", "propertyIsEnumerable",
   "toLocaleString", "toString", "valueOf", "__defineGetter__",
   "__defineSetter__", "__lookupGetter__", "__lookupSetter__", "__proto__"]

/-- Result of evaluating `data[timeRange]` in generateMockData: either one of
the three own datasets, or a member inherited from Object.prototype. -/
inductive MockLookup where
  | dataset (d : ChartData)
  | inherited (name : String)
deriving DecidableEq

/-- JavaScript property lookup `data[timeRange]`, including the
Object.prototype chain: own properties shadow inherited ones, and the
lookup yields undefined (`none`) only when neither exists. -/
def mockDataLookup (timeRange : String) : Option MockLookup :=
  match mockDataOwn timeRange with
  | some d => some (.dataset d)
  | none =>
    if timeRange ∈ objectProtoProps then some (.inherited timeRange) else none

/-- DashboardApp.generateMockData (src/unnamed/part_001 lines 347-367):
`return data[timeRange] || data['7d'];`.  Every value the lookup can produce
(a dataset object or an inherited Object.prototype member) is truthy, so the
`||` falls through to the '7d' dataset exactly when the lookup is undefined. -/
def generateMockData (timeRange : String) : MockLookup :=
  (mockDataLookup timeRange).getD (.dataset data7d)

/-! ### Part B: the scoring / deduplication pipeline of spec.md

The Content Discovery pipeline (Fingerprint Generator, History Store
Adapter, Relevance Scorer, Candidate Ranker) is described by the README
(src/unnamed/part_002) and the PRD (src/unnamed/part_000) but has no
implementation in the supplied sources; every definition below is modelled
from the spec, with the numeric defaults taken from the README's
SCORING_CONFIG snippet and environment table. -/

/-- Modelled from the spec (§3 ContentCandidate), whose implementation is
missing from the sources.  Timestamps are rational numbers of hours on the
UTC axis. -/
structure ContentCandidate where
  id : String
  title : String
  sourceUrl : String
  upvotes : ℕ
  commentCount : ℕ
  publishedAt : ℚ
  rawText : String
deriving DecidableEq

/-- Modelled from the spec (§3 ScoredCandidate): a candidate together with
its score.  The ranker below is parametric in the scoring function, so the
score field records that function's value. -/
structure ScoredCandidate where
  cand : ContentCandidate
  score : ℚ
deriving DecidableEq

/-- Modelled from the spec (§3 ScoringConfig and §4.3), whose implementation
is missing from the sources.  `maxAgeHours` is the recency horizon of §4.3
(README environment entry MAX_POST_AGE_HOURS). -/
structure ScoringConfig where
  wUpvotes : ℚ
  wComments : ℚ
  wRecency : ℚ
  wKeywords : ℚ
  priorityKeywords : List String
  minimumScore : ℚ
  dedupWindowDays : ℕ
  maxAgeHours : ℚ
deriving DecidableEq

/-- The shipped default configuration, from the README's SCORING_CONFIG
snippet (src/unnamed/part_002 lines 296-309) and its environment table
(MAX_POST_AGE_HOURS=24, CONTENT_HISTORY_DAYS=14). -/
def defaultConfig : ScoringConfig where
  wUpvotes := 2/5
  wComments := 3/10
  wRecency := 1/5
  wKeywords := 1/10
  priorityKeywords :=
    ["funding", "acquisition", "IPO", "investment", "breakthrough",
     "launch", "partnership", "AI startup", "venture capital", "unicorn"]
  minimumScore := 50
  dedupWindowDays := 14
  maxAgeHours := 24

/-- Modelled from the spec (§7): the ConfigError raised on an invalid
ScoringConfig. -/
inductive ConfigError where
  | weightSum (sum : ℚ)
  | negativeThreshold
deriving DecidableEq

/-- Sum of the four scoring weights of a configuration. -/
def weightSum (cfg : ScoringConfig) : ℚ :=
  cfg.wUpvotes + cfg.wComments + cfg.wRecency + cfg.wKeywords

/-- Modelled from the spec (§3 ScoringConfig, §7 ConfigError): load-time
validation, failing when the weight sum deviates from 1 by more than 0.01,
or on a negative threshold, or on a dedup window below 1 day (§6). -/
def loadConfig (cfg : ScoringConfig) : Except ConfigError ScoringConfig :=
  if 1/100 < |weightSum cfg - 1| then .error (.weightSum (weightSum cfg))
  else if cfg.minimumScore < 0 then .error .negativeThreshold
  else if cfg.dedupWindowDays < 1 then .error .negativeThreshold
  else .ok cfg

/-- Modelled from the spec (§4.3): the fixed upvote saturation constant. -/
def upvoteSaturationPoint : ℕ := 500

/-- Modelled from the spec (§4.3): the fixed comment saturation constant. -/
def commentSaturationPoint : ℕ := 100

/-- Modelled from the spec (§4.3): the keyword score normalizer. -/
def keywordScoreNormalizer : ℕ := 3

/-- Modelled from the spec (§4.3):
`upvoteScore = min(1.0, log(1 + upvotes) / log(1 + upvoteSaturationPoint))`. -/
noncomputable def upvoteScore (upvotes : ℕ) : ℝ :=
  min 1 (Real.log (1 + (upvotes : ℝ)) / Real.log (1 + (upvoteSaturationPoint : ℝ)))

/-- Modelled from the spec (§4.3):
`commentScore = min(1.0, log(1 + commentCount) / log(1 + commentSaturationPoint))`. -/
noncomputable def commentScore (commentCount : ℕ) : ℝ :=
  min 1 (Real.log (1 + (commentCount : ℝ)) / Real.log (1 + (commentSaturationPoint : ℝ)))

/-- Modelled from the spec (§4.3):
`recencyScore = max(0.0, 1.0 - ageHours / maxAgeHours)`. -/
def recencyScore (ageHours maxAgeHours : ℚ) : ℚ :=
  max 0 (1 - ageHours / maxAgeHours)

/-- Modelled from the spec (§4.3): the number of priorityKeywords entries
occurring case-insensitively in `title + rawText`, each counted at most
once. -/
def matchedKeywordCount (cfg : ScoringConfig) (c : ContentCandidate) : ℕ :=
  cfg.priorityKeywords.countP fun k =>
    decide (k.data.map Char.toLower <:+:
      (c.title.data ++ c.rawText.data).map Char.toLower)

/-- Modelled from the spec (§4.3):
`keywordScore = min(1.0, matchedKeywordCount / keywordScoreNormalizer)`. -/
def keywordScore (cfg : ScoringConfig) (c : ContentCandidate) : ℚ :=
  min 1 ((matchedKeywordCount cfg c : ℚ) / (keywordScoreNormalizer : ℚ))

/-- Modelled from the spec (§4.3): the weighted total score, scaled to the
0-100 display range used by the README's minimum_score threshold.  `now` is
the current time in hours, so `now - c.publishedAt` is the age in hours. -/
noncomputable def score (cfg : ScoringConfig) (now : ℚ) (c : ContentCandidate) : ℝ :=
  100 * ((cfg.wUpvotes : ℝ) * upvoteScore c.upvotes
    + (cfg.wComments : ℝ) * commentScore c.commentCount
    + (cfg.wRecency : ℝ) * ((recencyScore (now - c.publishedAt) cfg.maxAgeHours : ℚ) : ℝ)
    + (cfg.wKeywords : ℝ) * ((keywordScore cfg c : ℚ) : ℝ))

/-- True for the whitespace characters collapsed by title normalization. -/
def isWs (c : Char) : Bool :=
  c = ' ' || c = '\t' || c = '\n' || c = '\r'

/-- True for the punctuation stripped from the ends of a title. -/
def isPunct (c : Char) : Bool :=
  c = '.' || c = ',' || c = ';' || c = ':' || c = '!' || c = '?'

/-- Collapse every run of whitespace to a single space. -/
def collapseWs (l : List Char) : List Char :=
  l.foldr (fun c acc =>
    if isWs c then (if acc.head? = some ' ' then acc else ' ' :: acc)
    else c :: acc) []

/-- True for characters stripped from the ends of a normalized title. -/
def stripChar (c : Char) : Bool := isWs c || isPunct c

/-- Drop leading and trailing whitespace and punctuation. -/
def stripEnds (l : List Char) : List Char :=
  ((l.dropWhile stripChar).reverse.dropWhile stripChar).reverse

/-- Modelled from the spec (§4.1): title normalization — lowercase, collapse
internal whitespace, strip leading/trailing whitespace and punctuation. -/
def normalizeTitle (t : String) : String :=
  String.mk (stripEnds (collapseWs (t.data.map Char.toLower)))

/-- Keep the characters before the first occurrence of `mark`. -/
def stripAfter (mark : Char) (l : List Char) : List Char :=
  l.takeWhile fun c => c ≠ mark

/-- Split a character list at the first occurrence of the "://" scheme
separator, returning the scheme part (separator included) and the rest. -/
def findSchemeSplit : List Char → Option (List Char × List Char)
  | [] => none
  | ':' :: '/' :: '/' :: rest => some ([':', '/', '/'], rest)
  | c :: rest =>
    match findSchemeSplit rest with
    | none => none
    | some (pre, post) => some (c :: pre, post)

/-- Modelled from the spec (§4.1): URL normalization — strip query string and
fragment, lowercase the host, strip a trailing slash. -/
def normalizeUrl (u : String) : String :=
  let base := stripAfter '#' (stripAfter '?' u.data)
  let parts :=
    match findSchemeSplit base with
    | none => ([], base)
    | some (schemePart, rest) => (schemePart, rest)
  let hostPath := parts.2.span fun c => c ≠ '/'
  let full := parts.1 ++ hostPath.1.map Char.toLower ++ hostPath.2
  String.mk (if full.getLast? = some '/' then full.dropLast else full)

/-- Modelled from the spec (§4.1): the fingerprint of a candidate — the
normalized title and normalized URL joined by a separator.  The stable hash
is modelled as the identity encoding of that string (the spec requires only
stability and purity of the hash).  An empty normalized title falls back to
the URL-only fingerprint; when the URL is also empty the candidate is
invalid (`none`, the InvalidCandidateError of §4.1/§7). -/
def fingerprint (c : ContentCandidate) : Option String :=
  let t := normalizeTitle c.title
  let u := normalizeUrl c.sourceUrl
  if t = "" && u = "" then none
  else if t = "" then some u
  else some (t ++ "|" ++ u)

/-- Modelled from the spec (§4.2): the History Store exposes
`exists(fingerprint, windowDays)`, which answers `Except.ok b` or fails with
StoreUnavailableError, modelled as `Except.error ()`. -/
def HistoryStore : Type := String → ℕ → Except Unit Bool

/-- Modelled from the spec (§4.4 stage 1): walk the batch in order keeping a
candidate when it has a fingerprint, that fingerprint did not occur earlier
in the batch (`seen` accumulates every fingerprint processed so far: first
occurrence wins), and the History Store answers `ok false`.  Candidates
whose lookup answers `ok true` (existing match) or fails with
StoreUnavailableError are excluded conservatively (§4.2, §7). -/
def stage1 (history : HistoryStore) (windowDays : ℕ) :
    List ContentCandidate → List String → List ContentCandidate
  | [], _ => []
  | c :: rest, seen =>
    match fingerprint c with
    | none => stage1 history windowDays rest seen
    | some fp =>
      if fp ∈ seen then stage1 history windowDays rest seen
      else
        match history fp windowDays with
        | .ok false => c :: stage1 history windowDays rest (fp :: seen)
        | _ => stage1 history windowDays rest (fp :: seen)

/-- The set of fingerprints accumulated by stage 1 after processing `l`,
starting from `seen`. -/
def seenAfter (l : List ContentCandidate) (seen : List String) : List String :=
  l.foldl (fun s c =>
    match fingerprint c with
    | none => s
    | some fp => if fp ∈ s then s else fp :: s) seen

/-- Modelled from the spec (§4.4 stage 4): the sort order of the ranked
output — descending score, ties broken by higher upvotes, then earlier
publishedAt. -/
def rankLE (a b : ScoredCandidate) : Prop :=
  b.score < a.score ∨
    (a.score = b.score ∧
      (b.cand.upvotes < a.cand.upvotes ∨
        (a.cand.upvotes = b.cand.upvotes ∧ a.cand.publishedAt ≤ b.cand.publishedAt)))

instance : DecidableRel rankLE := fun a b => by
  unfold rankLE; exact inferInstance

instance : IsTotal ScoredCandidate rankLE := by
  constructor
  intro a b
  unfold rankLE
  rcases lt_trichotomy a.score b.score with h | h | h
  · exact Or.inr (Or.inl h)
  · rcases Nat.lt_trichotomy a.cand.upvotes b.cand.upvotes with h2 | h2 | h2
    · exact Or.inr (Or.inr ⟨h.symm, Or.inl h2⟩)
    · rcases le_total a.cand.publishedAt b.cand.publishedAt with h3 | h3
      · exact Or.inl (Or.inr ⟨h, Or.inr ⟨h2, h3⟩⟩)
      · exact Or.inr (Or.inr ⟨h.symm, Or.inr ⟨h2.symm, h3⟩⟩)
    · exact Or.inl (Or.inr ⟨h, Or.inl h2⟩)
  · exact Or.inl (Or.inl h)

instance : IsTrans ScoredCandidate rankLE := by
  constructor
  intro a b c hab hbc
  unfold rankLE at hab hbc ⊢
  rcases hab with h1 | ⟨e1, h1⟩
  · rcases hbc with h2 | ⟨e2, h2⟩
    · exact Or.inl (lt_trans h2 h1)
    · exact Or.inl (e2 ▸ h1)
  · rcases hbc with h2 | ⟨e2, h2⟩
    · exact Or.inl (e1 ▸ h2)
    · refine Or.inr ⟨e1.trans e2, ?_⟩
      rcases h1 with h1 | ⟨f1, h1⟩
      · rcases h2 with h2 | ⟨f2, h2⟩
        · exact Or.inl (Nat.lt_trans h2 h1)
        · exact Or.inl (f2 ▸ h1)
      · rcases h2 with h2 | ⟨f2, h2⟩
        · exact Or.inl (f1 ▸ h2)
        · exact Or.inr ⟨f1.trans f2, le_trans h1 h2⟩

/-- Modelled from the spec (§4.4 stages 1-3): deduplicated survivors, scored
by the supplied scoring function and filtered by the minimum-score
threshold.  The ranker is parametric in the Relevance Scorer, which the spec
(§2) lists as a separate component. -/
def survivors (cfg : ScoringConfig) (scoreFn : ContentCandidate → ℚ)
    (history : HistoryStore) (batch : List ContentCandidate) : List ScoredCandidate :=
  ((stage1 history cfg.dedupWindowDays batch []).map fun c =>
    ScoredCandidate.mk c (scoreFn c)).filter fun s =>
      decide (cfg.minimumScore ≤ s.score)

/-- Modelled from the spec (§4.4): rank — dedup, score, filter by threshold,
sort descending by score with the tie-breaks of stage 4, and return the full
ordered list (no top-N truncation). -/
def rank (cfg : ScoringConfig) (scoreFn : ContentCandidate → ℚ)
    (history : HistoryStore) (batch : List ContentCandidate) : List ScoredCandidate :=
  List.insertionSort rankLE (survivors cfg scoreFn history batch)

/-! ### Helper lemmas about stage 1 of the ranker -/

theorem seenAfter_cons (c : ContentCandidate) (l : List ContentCandidate) (s : List String) :
    seenAfter (c :: l) s =
      seenAfter l (match fingerprint c with
        | none => s
        | some fp => if fp ∈ s then s else fp :: s) := rfl

theorem mem_of_mem_stage1 (history : HistoryStore) (w : ℕ) :
    ∀ (l : List ContentCandidate) (seen : List String) (a : ContentCandidate),
      a ∈ stage1 history w l seen → a ∈ l := by
  intro l
  induction l with
  | nil => intro seen a ha; simp [stage1] at ha
  | cons c rest ih =>
    intro seen a ha
    simp only [stage1] at ha
    split at ha
    · exact List.mem_cons_of_mem c (ih _ _ ha)
    · split at ha
      · exact List.mem_cons_of_mem c (ih _ _ ha)
      · split at ha
        · rcases List.mem_cons.mp ha with rfl | h
          · exact List.mem_cons_self _ _
          · exact List.mem_cons_of_mem c (ih _ _ h)
        · exact List.mem_cons_of_mem c (ih _ _ ha)

theorem fingerprint_of_mem_stage1 (history : HistoryStore) (w : ℕ) :
    ∀ (l : List ContentCandidate) (seen : List String) (a : ContentCandidate),
      a ∈ stage1 history w l seen →
      ∃ fp, fingerprint a = some fp ∧ history fp w = Except.ok false ∧ fp ∉ seen := by
  intro l
  induction l with
  | nil => intro seen a ha; simp [stage1] at ha
  | cons c rest ih =>
    intro seen a ha
    simp only [stage1] at ha
    split at ha
    · exact ih _ _ ha
    next fp hf =>
      split at ha
      next hm => exact ih _ _ ha
      next hm =>
        split at ha
        next hh =>
          rcases List.mem_cons.mp ha with rfl | h
          · exact ⟨fp, hf, hh, hm⟩
          · obtain ⟨fp2, h1, h2, h3⟩ := ih _ _ h
            exact ⟨fp2, h1, h2, fun hc => h3 (List.mem_cons_of_mem _ hc)⟩
        next x hh =>
          obtain ⟨fp2, h1, h2, h3⟩ := ih _ _ ha
          exact ⟨fp2, h1, h2, fun hc => h3 (List.mem_cons_of_mem _ hc)⟩

theorem stage1_append (history : HistoryStore) (w : ℕ) :
    ∀ (l₁ l₂ : List ContentCandidate) (seen : List String),
      stage1 history w (l₁ ++ l₂) seen =
        stage1 history w l₁ seen ++ stage1 history w l₂ (seenAfter l₁ seen) := by
  intro l₁
  induction l₁ with
  | nil => intro l₂ seen; simp [stage1, seenAfter]
  | cons c rest ih =>
    intro l₂ seen
    rw [List.cons_append]
    simp only [stage1, seenAfter_cons]
    split
    · exact ih l₂ seen
    next fp hf =>
      by_cases hm : fp ∈ seen
      · simp only [if_pos hm]
        exact ih l₂ seen
      · simp only [if_neg hm]
        split
        · rw [List.cons_append]
          exact congrArg (c :: ·) (ih l₂ _)
        · exact ih l₂ _

theorem mem_seenAfter_of_mem (fp : String) :
    ∀ (l : List ContentCandidate) (s : List String), fp ∈ s → fp ∈ seenAfter l s := by
  intro l
  induction l with
  | nil => intro s h; exact h
  | cons c rest ih =>
    intro s h
    rw [seenAfter_cons]
    split
    · exact ih _ h
    · split
      · exact ih _ h
      · exact ih _ (List.mem_cons_of_mem _ h)

theorem mem_seenAfter_self :
    ∀ (l : List ContentCandidate) (s : List String) (c : ContentCandidate) (fp : String),
      c ∈ l → fingerprint c = some fp → fp ∈ seenAfter l s := by
  intro l
  induction l with
  | nil => intro s c fp h; simp at h
  | cons d rest ih =>
    intro s c fp hc hf
    rw [seenAfter_cons]
    rcases List.mem_cons.mp hc with rfl | hc2
    · simp only [hf]
      apply mem_seenAfter_of_mem
      by_cases hm : fp ∈ s
      · rw [if_pos hm]; exact hm
      · rw [if_neg hm]; exact List.mem_cons_self _ _
    · exact ih _ _ _ hc2 hf

theorem mem_of_mem_seenAfter (fp : String) :
    ∀ (l : List ContentCandidate) (s : List String),
      fp ∈ seenAfter l s → fp ∈ s ∨ ∃ c ∈ l, fingerprint c = some fp := by
  intro l
  induction l with
  | nil => intro s h; exact Or.inl h
  | cons c rest ih =>
    intro s h
    rw [seenAfter_cons] at h
    split at h
    · rcases ih _ h with h2 | ⟨d, hd, hfd⟩
      · exact Or.inl h2
      · exact Or.inr ⟨d, List.mem_cons_of_mem c hd, hfd⟩
    next fpc hfc =>
      rcases ih _ h with h2 | ⟨d, hd, hfd⟩
      · by_cases hm : fpc ∈ s
        · rw [if_pos hm] at h2; exact Or.inl h2
        · rw [if_neg hm] at h2
          rcases List.mem_cons.mp h2 with rfl | h3
          · exact Or.inr ⟨c, List.mem_cons_self c rest, hfc⟩
          · exact Or.inl h3
      · exact Or.inr ⟨d, List.mem_cons_of_mem c hd, hfd⟩

theorem stage1_keep (history : HistoryStore) (w : ℕ)
    (pre post : List ContentCandidate) (seen : List String)
    (c : ContentCandidate) (fp : String)
    (hf : fingerprint c = some fp) (hns : fp ∉ seenAfter pre seen)
    (hh : history fp w = Except.ok false) :
    c ∈ stage1 history w (pre ++ c :: post) seen := by
  rw [stage1_append]
  apply List.mem_append_right
  simp only [stage1, hf, if_neg hns, hh]
  exact List.mem_cons_self _ _

theorem mem_rank_iff (cfg : ScoringConfig) (scoreFn : ContentCandidate → ℚ)
    (history : HistoryStore) (batch : List ContentCandidate) (s : ScoredCandidate) :
    s ∈ rank cfg scoreFn history batch ↔ s ∈ survivors cfg scoreFn history batch :=
  (List.perm_insertionSort rankLE _).mem_iff

theorem mem_survivors_iff (cfg : ScoringConfig) (scoreFn : ContentCandidate → ℚ)
    (history : HistoryStore) (batch : List ContentCandidate) (s : ScoredCandidate) :
    s ∈ survivors cfg scoreFn history batch ↔
      s.cand ∈ stage1 history cfg.dedupWindowDays batch [] ∧
        s.score = scoreFn s.cand ∧ cfg.minimumScore ≤ s.score := by
  unfold survivors
  rw [List.mem_filter]
  simp only [List.mem_map, decide_eq_true_eq]
  constructor
  · rintro ⟨⟨c, hc, rfl⟩, hmin⟩
    exact ⟨hc, rfl, hmin⟩
  · rintro ⟨hc, hs, hmin⟩
    refine ⟨⟨s.cand, hc, ?_⟩, hmin⟩
    obtain ⟨c, q⟩ := s
    simp only at hs ⊢
    rw [← hs]

/-! ### Claim theorems: Part A -/

/-- Helper: the feedback label of checkPasswordStrength characterized by the
score ranges of its threshold chain. -/
theorem passwordFeedback_ranges (s : ℕ) :
    (passwordFeedback s = "Weak password" ↔ s < 30) ∧
    (passwordFeedback s = "Fair password" ↔ 30 ≤ s ∧ s < 60) ∧
    (passwordFeedback s = "Good password" ↔ 60 ≤ s ∧ s < 90) ∧
    (passwordFeedback s = "Strong password" ↔ 90 ≤ s) := by
  unfold passwordFeedback
  by_cases h1 : s < 30
  · rw [if_pos h1]
    exact ⟨iff_of_true rfl h1, iff_of_false (by decide) (by omega),
      iff_of_false (by decide) (by omega), iff_of_false (by decide) (by omega)⟩
  · rw [if_neg h1]
    by_cases h2 : s < 60
    · rw [if_pos h2]
      exact ⟨iff_of_false (by decide) (by omega), iff_of_true rfl (by omega),
        iff_of_false (by decide) (by omega), iff_of_false (by decide) (by omega)⟩
    · rw [if_neg h2]
      by_cases h3 : s < 90
      · rw [if_pos h3]
        exact ⟨iff_of_false (by decide) (by omega), iff_of_false (by decide) (by omega),
          iff_of_true rfl (by omega), iff_of_false (by decide) (by omega)⟩
      · rw [if_neg h3]
        exact ⟨iff_of_false (by decide) (by omega), iff_of_false (by decide) (by omega),
          iff_of_false (by decide) (by omega), iff_of_true rfl (by omega)⟩

/-- C8: formatNumber returns `(num / 1000).toFixed(1) + "K"` for inputs at or
above 1000 and the plain decimal string below 1000; in particular 1000 maps
to "1.0K" and 999 maps to "999". -/
theorem formatNumber_spec :
    (∀ num : ℕ, 1000 ≤ num → formatNumber num = toFixed1 num ++ "K") ∧
    (∀ num : ℕ, num < 1000 → formatNumber num = Nat.repr num) ∧
    formatNumber 1000 = "1.0K" ∧ formatNumber 999 = "999" := by
  refine ⟨fun num h => ?_, fun num h => ?_, by decide, by decide⟩
  · unfold formatNumber
    rw [if_pos h]
  · unfold formatNumber
    rw [if_neg (by omega)]

/-- C8 witness: the theorem applied at the concrete inputs 2500 and 999. -/
theorem formatNumber_spec_witness :
    formatNumber 2500 = toFixed1 2500 ++ "K" ∧ formatNumber 999 = Nat.repr 999 :=
  ⟨formatNumber_spec.1 2500 (by decide), formatNumber_spec.2.1 999 (by decide)⟩

/-- C9: checkPasswordStrength computes the score as the sum of 25 points for
length at least 8, 15 for a lowercase letter, 15 for an uppercase letter, 20
for a digit and 25 for a non-alphanumeric character, and labels the password
by the thresholds 30 / 60 / 90. -/
theorem checkPasswordStrength_spec (p : String) :
    (checkPasswordStrength p).1 =
      (if 8 ≤ p.length then 25 else 0) +
      (if p.toList.any (fun c => 'a' ≤ c && c ≤ 'z') then 15 else 0) +
      (if p.toList.any (fun c => 'A' ≤ c && c ≤ 'Z') then 15 else 0) +
      (if p.toList.any (fun c => '0' ≤ c && c ≤ '9') then 20 else 0) +
      (if p.toList.any
          (fun c => !(('a' ≤ c && c ≤ 'z') || ('A' ≤ c && c ≤ 'Z') || ('0' ≤ c && c ≤ '9')))
        then 25 else 0) ∧
    ((checkPasswordStrength p).2 = "Weak password" ↔ (checkPasswordStrength p).1 < 30) ∧
    ((checkPasswordStrength p).2 = "Fair password" ↔
      30 ≤ (checkPasswordStrength p).1 ∧ (checkPasswordStrength p).1 < 60) ∧
    ((checkPasswordStrength p).2 = "Good password" ↔
      60 ≤ (checkPasswordStrength p).1 ∧ (checkPasswordStrength p).1 < 90) ∧
    ((checkPasswordStrength p).2 = "Strong password" ↔ 90 ≤ (checkPasswordStrength p).1) := by
  obtain ⟨r1, r2, r3, r4⟩ := passwordFeedback_ranges (passwordScore p)
  exact ⟨rfl, r1, r2, r3, r4⟩

/-- C9 witness: the theorem applied at a concrete password whose score is
25 + 15 + 15 + 20 + 25 = 100, labelled strong. -/
theorem checkPasswordStrength_spec_witness :
    (checkPasswordStrength "Abcdef1!").2 = "Strong password" :=
  (checkPasswordStrength_spec "Abcdef1!").2.2.2.2.mpr (by decide)

/-- C10 counterexample: at the input "constructor", generateMockData does not
return the '7d' dataset — the JavaScript lookup `data["constructor"]` finds
the Object constructor inherited from Object.prototype, which is truthy, so
the `|| data['7d']` default is not taken. -/
theorem generateMockData_constructor :
    generateMockData "constructor" ≠ MockLookup.dataset data7d ∧
    generateMockData "constructor" = MockLookup.inherited "constructor" :=
  ⟨by decide, by decide⟩

/-- C10 (amended): generateMockData returns the matching dataset for '7d',
'30d' and '90d', the '7d' dataset for every other input that is not a
property name inherited from Object.prototype, and the inherited (defined,
truthy) member for those names; in no case is the result undefined. -/
theorem generateMockData_total :
    generateMockData "7d" = MockLookup.dataset data7d ∧
    generateMockData "30d" = MockLookup.dataset data30d ∧
    generateMockData "90d" = MockLookup.dataset data90d ∧
    (∀ s, s ∉ (["7d", "30d", "90d"] : List String) → s ∉ objectProtoProps →
      generateMockData s = MockLookup.dataset data7d) ∧
    (∀ s, s ∈ objectProtoProps → generateMockData s = MockLookup.inherited s) := by
  refine ⟨by decide, by decide, by decide, ?_, ?_⟩
  · intro s h1 h2
    simp only [List.mem_cons, List.not_mem_nil, or_false, not_or] at h1
    obtain ⟨e1, e2, e3⟩ := h1
    unfold generateMockData mockDataLookup mockDataOwn
    rw [if_neg e1, if_neg e2, if_neg e3]
    show (if s ∈ objectProtoProps then some (MockLookup.inherited s) else none).getD
      (MockLookup.dataset data7d) = MockLookup.dataset data7d
    rw [if_neg h2]
    rfl
  · intro s h
    simp only [objectProtoProps, List.mem_cons, List.not_mem_nil, or_false] at h
    rcases h with rfl | rfl | rfl | rfl | rfl | rfl | rfl | rfl | rfl | rfl | rfl | rfl <;>
      decide

/-- C10 witness: the amended theorem applied at the concrete inputs "14d"
(falls back to the '7d' dataset) and "toString" (inherited member). -/
theorem generateMockData_total_witness :
    generateMockData "14d" = MockLookup.dataset data7d ∧
    generateMockData "toString" = MockLookup.inherited "toString" :=
  ⟨generateMockData_total.2.2.2.1 "14d" (by decide) (by decide),
   generateMockData_total.2.2.2.2 "toString" (by decide)⟩

/-! ### Claim theorems: Part B -/

/-- Helper: title normalization depends only on the lowercased title. -/
theorem normalizeTitle_congr {t₁ t₂ : String}
    (h : t₁.data.map Char.toLower = t₂.data.map Char.toLower) :
    normalizeTitle t₁ = normalizeTitle t₂ := by
  unfold normalizeTitle
  rw [h]

/-- Helper: candidates with case-equal titles and equal URLs have equal
fingerprints. -/
theorem fingerprint_congr {c₁ c₂ : ContentCandidate}
    (ht : c₁.title.data.map Char.toLower = c₂.title.data.map Char.toLower)
    (hu : c₁.sourceUrl = c₂.sourceUrl) :
    fingerprint c₁ = fingerprint c₂ := by
  unfold fingerprint
  rw [normalizeTitle_congr ht, hu]

/-- C1: in a batch holding two candidates whose titles differ only in letter
case and whose sourceUrl values are identical, the two fingerprints collide,
stage 1 excludes the later occurrence, and the first occurrence survives
stage 1 whenever the History Store answers `ok false` for its fingerprint
and no earlier batch member shares that fingerprint. -/
theorem dedup_case_insensitive
    (history : HistoryStore) (w : ℕ) (pre mid post : List ContentCandidate)
    (c₁ c₂ : ContentCandidate)
    (ht : c₁.title.data.map Char.toLower = c₂.title.data.map Char.toLower)
    (hu : c₁.sourceUrl = c₂.sourceUrl)
    (hne : c₂ ≠ c₁) (hpre : c₂ ∉ pre) (hmid : c₂ ∉ mid) :
    fingerprint c₂ = fingerprint c₁ ∧
    c₂ ∉ stage1 history w (pre ++ c₁ :: (mid ++ c₂ :: post)) [] ∧
    (∀ fp, fingerprint c₁ = some fp → history fp w = Except.ok false →
      (∀ d ∈ pre, fingerprint d ≠ some fp) →
      c₁ ∈ stage1 history w (pre ++ c₁ :: (mid ++ c₂ :: post)) []) := by
  have hfp : fingerprint c₂ = fingerprint c₁ := fingerprint_congr ht.symm hu.symm
  have hbatch : pre ++ c₁ :: (mid ++ c₂ :: post) = (pre ++ c₁ :: mid) ++ (c₂ :: post) := by
    simp [List.append_assoc]
  refine ⟨hfp, ?_, ?_⟩
  · rw [hbatch, stage1_append]
    intro hmem
    rcases List.mem_append.mp hmem with h | h
    · have hin := mem_of_mem_stage1 history w _ _ _ h
      rcases List.mem_append.mp hin with h2 | h2
      · exact hpre h2
      · rcases List.mem_cons.mp h2 with h3 | h3
        · exact hne h3
        · exact hmid h3
    · obtain ⟨fp2, hf2, hh2, hns⟩ := fingerprint_of_mem_stage1 history w _ _ _ h
      have hc1 : fingerprint c₁ = some fp2 := by rw [← hfp]; exact hf2
      exact hns (mem_seenAfter_self _ _ _ _
        (List.mem_append_right pre (List.mem_cons_self c₁ mid)) hc1)
  · intro fp hf1 hh hpre2
    apply stage1_keep history w pre _ [] c₁ fp hf1 ?_ hh
    intro hmem
    rcases mem_of_mem_seenAfter fp pre [] hmem with h | ⟨d, hd, hfd⟩
    · simp at h
    · exact hpre2 d hd hfd

/-- The candidate of the end-to-end scenario (§8): strong engagement, fresh,
keyword matches; used as a concrete witness input. -/
def cA : ContentCandidate :=
  ⟨"a", "AI startup raises $10M", "https://example.com/ai", 200, 50, -2,
   "funding launch"⟩

/-- A case-variant duplicate of cA: title differing only in letter case,
identical sourceUrl. -/
def cB : ContentCandidate :=
  ⟨"b", "ai startup raises $10m", "https://example.com/ai", 10, 1, -1, ""⟩

/-- C1 witness: the theorem applied to the concrete two-candidate batch of
the spec's dedup-correctness property, with a fresh history store. -/
theorem dedup_case_insensitive_witness :
    fingerprint cB = fingerprint cA ∧
    cB ∉ stage1 (fun _ _ => Except.ok false) 14 ([] ++ cA :: ([] ++ cB :: [])) [] ∧
    cA ∈ stage1 (fun _ _ => Except.ok false) 14 ([] ++ cA :: ([] ++ cB :: [])) [] := by
  have ht : cA.title.data.map Char.toLower = cB.title.data.map Char.toLower := by decide
  have hu : cA.sourceUrl = cB.sourceUrl := by decide
  have hne : cB ≠ cA := by decide
  have hpre : cB ∉ ([] : List ContentCandidate) := by simp
  have hmid : cB ∉ ([] : List ContentCandidate) := by simp
  obtain ⟨w1, w2, w3⟩ := dedup_case_insensitive (fun _ _ => Except.ok false) 14
    [] [] [] cA cB ht hu hne hpre hmid
  have hfp : fingerprint cA = some "ai startup raises $10m|https://example.com/ai" := by
    decide
  exact ⟨w1, w2, w3 _ hfp rfl (by simp)⟩

/-- C2: rank is a pure function of its inputs; two invocations on the same
batch, configuration, scoring function and history-store state produce
identical output lists in identical order. -/
theorem rank_deterministic (cfg : ScoringConfig) (scoreFn : ContentCandidate → ℚ)
    (history : HistoryStore) (batch : List ContentCandidate) :
    rank cfg scoreFn history batch = rank cfg scoreFn history batch := rfl

/-- C2 witness: the theorem applied at a concrete batch and store. -/
theorem rank_deterministic_witness :
    rank defaultConfig (fun _ => 60) (fun _ _ => Except.ok false) [] =
      rank defaultConfig (fun _ => 60) (fun _ _ => Except.ok false) [] :=
  rank_deterministic defaultConfig (fun _ => 60) (fun _ _ => Except.ok false) []

/-- C3: a candidate whose History Store lookup fails with
StoreUnavailableError is excluded from the ranked output (conservative
exclusion), and a candidate whose lookup succeeds with `ok false`, whose
fingerprint has no earlier occurrence, and whose score meets the threshold
is still ranked. -/
theorem store_unavailable_conservative (cfg : ScoringConfig)
    (scoreFn : ContentCandidate → ℚ) (history : HistoryStore) :
    (∀ (batch : List ContentCandidate) (c : ContentCandidate) (fp : String),
      c ∈ batch → fingerprint c = some fp →
      history fp cfg.dedupWindowDays = Except.error () →
      ∀ s ∈ rank cfg scoreFn history batch, s.cand ≠ c) ∧
    (∀ (pre post : List ContentCandidate) (c : ContentCandidate) (fp : String),
      fingerprint c = some fp →
      (∀ d ∈ pre, fingerprint d ≠ some fp) →
      history fp cfg.dedupWindowDays = Except.ok false →
      cfg.minimumScore ≤ scoreFn c →
      ∃ s ∈ rank cfg scoreFn history (pre ++ c :: post),
        s.cand = c ∧ s.score = scoreFn c) := by
  constructor
  · intro batch c fp hc hf herr s hs heq
    rw [mem_rank_iff, mem_survivors_iff] at hs
    obtain ⟨hstage, _, _⟩ := hs
    rw [heq] at hstage
    obtain ⟨fp2, hf2, hok, _⟩ :=
      fingerprint_of_mem_stage1 history cfg.dedupWindowDays _ _ _ hstage
    rw [hf] at hf2
    obtain rfl : fp = fp2 := Option.some.inj hf2
    rw [herr] at hok
    simp at hok
  · intro pre post c fp hf hpre hok hmin
    refine ⟨ScoredCandidate.mk c (scoreFn c), ?_, rfl, rfl⟩
    rw [mem_rank_iff, mem_survivors_iff]
    refine ⟨?_, rfl, hmin⟩
    apply stage1_keep history cfg.dedupWindowDays pre post [] c fp hf ?_ hok
    intro hmem
    rcases mem_of_mem_seenAfter fp pre [] hmem with h | ⟨d, hd, hfd⟩
    · simp at h
    · exact hpre d hd hfd

/-- C3 witness: with a store that always fails, the single candidate of the
batch is excluded; with a healthy store it is ranked. -/
theorem store_unavailable_conservative_witness :
    ScoredCandidate.mk cA 60 ∉
      rank defaultConfig (fun _ => 60) (fun _ _ => Except.error ()) [cA] ∧
    rank defaultConfig (fun _ => 60) (fun _ _ => Except.ok false) ([] ++ cA :: []) ≠ [] := by
  constructor
  · intro hmem
    exact (store_unavailable_conservative defaultConfig (fun _ => 60)
        (fun _ _ => Except.error ())).1 [cA] cA
        "ai startup raises $10m|https://example.com/ai"
        (List.mem_cons_self _ _) (by decide) rfl _ hmem rfl
  · intro hemp
    obtain ⟨s, hs, _⟩ := (store_unavailable_conservative defaultConfig (fun _ => 60)
        (fun _ _ => Except.ok false)).2 [] [] cA
        "ai startup raises $10m|https://example.com/ai"
        (by decide) (by simp) rfl (by decide)
    rw [hemp] at hs
    simp at hs

/-- C4: loading any ScoringConfig whose weight sum deviates from 1 by more
than 0.01 fails with ConfigError, and the shipped default weights
0.4/0.3/0.2/0.1 load successfully. -/
theorem loadConfig_spec :
    (∀ cfg : ScoringConfig, 1/100 < |weightSum cfg - 1| →
      loadConfig cfg = Except.error (ConfigError.weightSum (weightSum cfg))) ∧
    loadConfig defaultConfig = Except.ok defaultConfig := by
  constructor
  · intro cfg h
    unfold loadConfig
    rw [if_pos h]
  · have h0 : weightSum defaultConfig = 1 := by norm_num [weightSum, defaultConfig]
    unfold loadConfig
    rw [h0, if_neg (by norm_num), if_neg (by decide), if_neg (by decide)]

/-- The 0.8-weight-sum configuration of the spec's weight-sum validation
property. -/
def cfg08 : ScoringConfig :=
  { defaultConfig with wUpvotes := 3/10, wRecency := 1/10 }

/-- C4 witness: the theorem applied to the configuration whose weights sum
to 0.8. -/
theorem loadConfig_spec_witness :
    loadConfig cfg08 = Except.error (ConfigError.weightSum (weightSum cfg08)) :=
  loadConfig_spec.1 cfg08 (by
    have h : weightSum cfg08 = 4/5 := by norm_num [weightSum, cfg08, defaultConfig]
    rw [h, show (4:ℚ)/5 - 1 = -(1/5) by norm_num, abs_neg, abs_of_pos (by norm_num)]
    norm_num)

/-- Helper: zero upvotes give a zero upvote component. -/
theorem upvoteScore_zero : upvoteScore 0 = 0 := by
  unfold upvoteScore
  norm_num [Real.log_one]

/-- Helper: zero comments give a zero comment component. -/
theorem commentScore_zero : commentScore 0 = 0 := by
  unfold commentScore
  norm_num [Real.log_one]

/-- The C5 candidate: no upvotes, no comments, no keyword matches, published
48 hours before the reference time 0. -/
def staleCandidate : ContentCandidate :=
  ⟨"stale", "hello world", "https://example.com/old", 0, 0, -48, ""⟩

/-- Helper: the C5 candidate's total score under the default configuration
is zero. -/
theorem staleCandidate_score : score defaultConfig 0 staleCandidate = 0 := by
  have h1 : upvoteScore staleCandidate.upvotes = 0 := upvoteScore_zero
  have h2 : commentScore staleCandidate.commentCount = 0 := commentScore_zero
  have h3 : recencyScore (0 - staleCandidate.publishedAt) defaultConfig.maxAgeHours = 0 := by
    show recencyScore (0 - (-48)) 24 = 0
    unfold recencyScore
    rw [show (1:ℚ) - (0 - (-48)) / 24 = -1 by norm_num]
    exact max_eq_left (by norm_num)
  have h4 : keywordScore defaultConfig staleCandidate = 0 := by
    have hm : matchedKeywordCount defaultConfig staleCandidate = 0 := by decide
    unfold keywordScore
    rw [hm]
    norm_num
  unfold score
  rw [h1, h2, h3, h4]
  norm_num

/-- C5: a candidate with zero upvotes, zero comments, zero keyword matches
and a publishedAt 48 hours in the past scores zero on recency under
maxAgeHours = 24, its total score 0 lies below the default minimumScore 50
on the 0-100 scale, and any such below-threshold candidate is excluded from
the ranked output. -/
theorem threshold_exclusion :
    recencyScore 48 24 = 0 ∧
    score defaultConfig 0 staleCandidate = 0 ∧
    score defaultConfig 0 staleCandidate < ((defaultConfig.minimumScore : ℚ) : ℝ) ∧
    (∀ (scoreFn : ContentCandidate → ℚ) (history : HistoryStore)
        (batch : List ContentCandidate),
      scoreFn staleCandidate < defaultConfig.minimumScore →
      ∀ s ∈ rank defaultConfig scoreFn history batch, s.cand ≠ staleCandidate) := by
  refine ⟨?_, staleCandidate_score, ?_, ?_⟩
  · unfold recencyScore
    rw [show (1:ℚ) - 48 / 24 = -1 by norm_num]
    exact max_eq_left (by norm_num)
  · rw [staleCandidate_score]
    show (0:ℝ) < ((50:ℚ) : ℝ)
    norm_num
  · intro scoreFn history batch hlt s hs heq
    rw [mem_rank_iff, mem_survivors_iff] at hs
    obtain ⟨_, hsc, hmin⟩ := hs
    rw [heq] at hsc
    rw [hsc] at hmin
    exact absurd hmin (not_le.mpr hlt)

/-- C5 witness: the exclusion clause applied at a concrete scorer assigning
the candidate its real score 0, a healthy store, and the singleton batch. -/
theorem threshold_exclusion_witness :
    ScoredCandidate.mk staleCandidate 0 ∉
      rank defaultConfig (fun _ => 0) (fun _ _ => Except.ok false) [staleCandidate] := by
  intro hmem
  exact threshold_exclusion.2.2.2 (fun _ => 0) (fun _ _ => Except.ok false)
    [staleCandidate] (by decide) _ hmem rfl

/-- Helper: at or above the saturation point the upvote component is
capped at 1. -/
theorem upvoteScore_saturated (u : ℕ) (h : upvoteSaturationPoint ≤ u) :
    upvoteScore u = 1 := by
  have hsat : ((upvoteSaturationPoint : ℕ) : ℝ) = 500 := by
    norm_num [upvoteSaturationPoint]
  have hpos : (0:ℝ) < Real.log (1 + (upvoteSaturationPoint : ℝ)) := by
    rw [hsat]
    exact Real.log_pos (by norm_num)
  have hcastle : ((upvoteSaturationPoint : ℕ) : ℝ) ≤ (u : ℝ) := Nat.cast_le.mpr h
  have hle : Real.log (1 + (upvoteSaturationPoint : ℝ)) ≤ Real.log (1 + (u : ℝ)) := by
    apply (Real.log_le_log_iff ?_ ?_).mpr
    · linarith
    · rw [hsat]; norm_num
    · rw [hsat] at hcastle; linarith
  unfold upvoteScore
  rw [min_eq_left ((one_le_div hpos).mpr hle)]

/-- C6: any two candidates whose upvote counts both lie at or above the
saturation point 500 receive the same upvoteScore, namely the cap 1. -/
theorem saturation_boundary (u₁ u₂ : ℕ)
    (h₁ : upvoteSaturationPoint ≤ u₁) (h₂ : upvoteSaturationPoint ≤ u₂) :
    upvoteScore u₁ = upvoteScore u₂ ∧ upvoteScore u₁ = 1 := by
  rw [upvoteScore_saturated u₁ h₁, upvoteScore_saturated u₂ h₂]
  exact ⟨rfl, rfl⟩

/-- C6 witness: the theorem applied at the spec's concrete inputs 500 and
5000. -/
theorem saturation_boundary_witness :
    upvoteScore 500 = upvoteScore 5000 ∧ upvoteScore 500 = 1 :=
  saturation_boundary 500 5000 (by decide) (by decide)

/-- C7: the ranked output is sorted by descending score with ties broken by
higher upvotes then earlier publishedAt, and it is a permutation of the
scored-and-threshold-filtered survivor list — every surviving candidate
appears and no top-N truncation happens inside rank. -/
theorem rank_sorted_complete (cfg : ScoringConfig) (scoreFn : ContentCandidate → ℚ)
    (history : HistoryStore) (batch : List ContentCandidate) :
    (rank cfg scoreFn history batch).Sorted rankLE ∧
    (rank cfg scoreFn history batch).Perm (survivors cfg scoreFn history batch) :=
  ⟨List.sorted_insertionSort rankLE _, List.perm_insertionSort rankLE _⟩

/-- C7 witness: the theorem applied at a concrete configuration, scorer,
store and batch. -/
theorem rank_sorted_complete_witness :
    (rank defaultConfig (fun _ => 60) (fun _ _ => Except.ok false) [cA]).Sorted rankLE ∧
    (rank defaultConfig (fun _ => 60) (fun _ _ => Except.ok false) [cA]).Perm
      (survivors defaultConfig (fun _ => 60) (fun _ _ => Except.ok false) [cA]) :=
  rank_sorted_complete defaultConfig (fun _ => 60) (fun _ _ => Except.ok false) [cA]

end PostSync
